import Mathlib

/-!
Shallow embedding of the x-bookmarks utilities
(`skills/x-bookmarks/convert-bookmarks-to-md.js`, which bundles the converter
and the `filter-bookmarks.js` filter tool) and proofs about their date
parsing, range filtering, Markdown rendering and argument handling.

Conventions of the embedding:
* A JavaScript `Date` value is `Option Int`: `some ms` is a valid instant in
  milliseconds since the epoch, `none` is an Invalid Date (time value `NaN`).
  The process-local timezone is modelled as a fixed zero offset, so local
  midnights are exact multiples of `86400000`.
* JavaScript relational comparison of two `Date`s compares their time values
  and is `false` whenever either is `NaN`.
* Strings are handled through their character lists so that every definition
  evaluates inside the kernel.
-/

namespace XBookmarks

/-- A JavaScript `Date` value: `none` is an Invalid Date (`NaN` time value),
`some ms` a valid instant in milliseconds since the epoch. -/
abbrev JSDate := Option Int

/-- Comparison `a < b` on two JS `Date`s: numeric on time values, `false`
when either side is `NaN` (an Invalid Date). -/
def jsDateLt : JSDate → JSDate → Bool
  | some a, some b => decide (a < b)
  | _, _ => false

/-- Comparison `a > b` on two JS `Date`s: numeric on time values, `false`
when either side is `NaN` (an Invalid Date). -/
def jsDateGt : JSDate → JSDate → Bool
  | some a, some b => decide (b < a)
  | _, _ => false

/-- Comparison `a >= b` on two JS `Date`s, `false` when either side is invalid. -/
def jsDateGe : JSDate → JSDate → Bool
  | some a, some b => decide (b ≤ a)
  | _, _ => false

/-- Comparison `a <= b` on two JS `Date`s, `false` when either side is invalid. -/
def jsDateLe : JSDate → JSDate → Bool
  | some a, some b => decide (a ≤ b)
  | _, _ => false

/-- JS truthiness of a possibly-absent string: `null`/`undefined` and the
empty string are falsy, every other string is truthy. -/
def truthyStr : Option String → Bool
  | none => false
  | some s => s ≠ ""

/-- Split a character list at every occurrence of `c`, keeping empty pieces,
like JavaScript `String.prototype.split` with a one-character separator
(`"".split` yields `[""]`, a leading or trailing separator yields an empty
piece). -/
def splitOnChar (c : Char) : List Char → List (List Char)
  | [] => [[]]
  | x :: xs =>
    match splitOnChar c xs with
    | [] => [[x]]
    | h :: t => if x = c then [] :: h :: t else (x :: h) :: t

/-- JS `s.split(c)` as a list of strings. -/
def splitStr (s : String) (c : Char) : List String :=
  (splitOnChar c s.data).map (fun l => ⟨l⟩)

/-- Whether the string starts with the character `c`
(JS `s.startsWith(c)` for a one-character prefix). -/
def startsWithChar (s : String) (c : Char) : Bool :=
  match s.data with
  | [] => false
  | x :: _ => x = c

/-- Digits-only reading of a string as a natural number: `none` unless the
string is nonempty and all characters are decimal digits. -/
def digitsToNat (s : String) : Option Nat :=
  match s.data with
  | [] => none
  | l => l.foldl (fun acc c =>
      acc.bind (fun n => if c.isDigit then some (n * 10 + (c.toNat - 48)) else none))
      (some 0)

/-- A JavaScript number as `ToNumber` yields it from a string: `NaN`,
`±Infinity`, or a finite value.  A finite value is carried exactly as
`mant * 10 ^ exp` (every decimal, hexadecimal, octal or binary string
literal denotes such a value); rounding the mathematical value to the
nearest IEEE double is not modelled — floating-point rounding moves a
literal by at most one unit in the last of its 17 significant digits and is
irrelevant to the calendar dates these tools consume. -/
inductive JSNumber where
  | nan
  | posInf
  | negInf
  | val (mant : Int) (exp : Int)
deriving Repr, DecidableEq

/-- Whitespace accepted (and trimmed) by `ToNumber` on strings: the
`StrWhiteSpace` characters — space, tab, line terminators, vertical tab,
form feed, no-break space, BOM, and the line/paragraph separators. -/
def isStrWS (c : Char) : Bool :=
  c = ' ' ∨ c = '\t' ∨ c = '\n' ∨ c = '\r' ∨ c = '\u000B' ∨ c = '\u000C' ∨
    c = ' ' ∨ c = '﻿' ∨ c = ' ' ∨ c = ' '

/-- Hexadecimal digit? -/
def isHexDig (c : Char) : Bool :=
  c.isDigit ∨ ('a' ≤ c ∧ c ≤ 'f') ∨ ('A' ≤ c ∧ c ≤ 'F')

/-- Octal digit? -/
def isOctDig (c : Char) : Bool := '0' ≤ c ∧ c ≤ '7'

/-- Binary digit? -/
def isBinDig (c : Char) : Bool := c = '0' ∨ c = '1'

/-- Value of one hexadecimal digit. -/
def hexDigitVal (c : Char) : Nat :=
  if c.isDigit then c.toNat - 48
  else if 'a' ≤ c then c.toNat - 87
  else c.toNat - 55

/-- Value of a digit string in the given base. -/
def baseVal (b : Nat) (dv : Char → Nat) (l : List Char) : Int :=
  ((l.foldl (fun acc c => acc * b + dv c) 0 : Nat) : Int)

/-- Value of a decimal-digit string. -/
def decDigitsVal (l : List Char) : Int := baseVal 10 (fun c => c.toNat - 48) l

/-- The optional `ExponentPart` of a decimal literal (`e`/`E`, optional
sign, decimal digits); `some 0` when absent, `none` when malformed or when
anything else trails the literal. -/
def parseExpPart : List Char → Option Int
  | [] => some 0
  | c :: rest =>
    if c = 'e' ∨ c = 'E' then
      match rest with
      | '+' :: ds => if ds ≠ [] ∧ ds.all Char.isDigit then some (decDigitsVal ds) else none
      | '-' :: ds => if ds ≠ [] ∧ ds.all Char.isDigit then some (-decDigitsVal ds) else none
      | ds => if ds ≠ [] ∧ ds.all Char.isDigit then some (decDigitsVal ds) else none
    else none

/-- The `StrUnsignedDecimalLiteral` grammar, excluding `Infinity`:
`digits [. digits] [exp]` or `. digits [exp]`, consuming the whole input;
the result is the exact value `mant * 10 ^ exp`. -/
def parseUnsignedDec (l : List Char) : Option (Int × Int) :=
  let ip := l.takeWhile Char.isDigit
  let rest := l.dropWhile Char.isDigit
  match rest with
  | '.' :: rest2 =>
    let fp := rest2.takeWhile Char.isDigit
    let rest3 := rest2.dropWhile Char.isDigit
    if ip = [] ∧ fp = [] then none
    else
      match parseExpPart rest3 with
      | some ex => some (decDigitsVal (ip ++ fp), ex - fp.length)
      | none => none
  | _ =>
    if ip = [] then none
    else
      match parseExpPart rest with
      | some ex => some (decDigitsVal ip, ex)
      | none => none

/-- The value `2 ^ 1024`, written out so that evaluation never unfolds the
exponentiation: string-to-number conversion overflows to `±Infinity` at
this boundary of the IEEE double range. -/
def doubleOverflowBound : Nat := 179769313486231590772930519078902473361797697894230657273430081157732675805500963132708477322407536021120113879871393357658789768814416622492847430639474124377767893424865485276302219601246094119453082952085005768838150682342462881473913110540827237163350510684586298239947245938479716304835356329624224137216

/-- Build a finite `JSNumber`, overflowing to `±Infinity` at the double
range boundary `2 ^ 1024` as the host conversion does (the mantissa from a
digit string is never negative; the sign arrives separately). -/
def mkFinite (neg : Bool) (mant ex : Int) : JSNumber :=
  let overflow :=
    if 0 ≤ ex then decide ((doubleOverflowBound : Int) ≤ mant * ((10 ^ ex.toNat : Nat) : Int))
    else decide (((doubleOverflowBound * 10 ^ (-ex).toNat : Nat) : Int) ≤ mant)
  if overflow then (if neg then .negInf else .posInf)
  else .val (if neg then -mant else mant) ex

/-- A `StrDecimalLiteral` body after its optional sign: `Infinity` or an
unsigned decimal literal. -/
def parseDecBody (neg : Bool) (l : List Char) : JSNumber :=
  if l = "Infinity".data then (if neg then .negInf else .posInf)
  else
    match parseUnsignedDec l with
    | some (m, ex) => mkFinite neg m ex
    | none => .nan

/-- A signed decimal literal. -/
def parseSignedDec : List Char → JSNumber
  | '+' :: rest => parseDecBody false rest
  | '-' :: rest => parseDecBody true rest
  | rest => parseDecBody false rest

/-- The `StrNumericLiteral` grammar: an unsigned hexadecimal, octal or
binary literal, or a signed decimal literal. -/
def parseStrNumeric (l : List Char) : JSNumber :=
  match l with
  | '0' :: x :: ds =>
    if x = 'x' ∨ x = 'X' then
      if ds ≠ [] ∧ ds.all isHexDig then mkFinite false (baseVal 16 hexDigitVal ds) 0 else .nan
    else if x = 'o' ∨ x = 'O' then
      if ds ≠ [] ∧ ds.all isOctDig then mkFinite false (baseVal 8 (fun c => c.toNat - 48) ds) 0
      else .nan
    else if x = 'b' ∨ x = 'B' then
      if ds ≠ [] ∧ ds.all isBinDig then mkFinite false (baseVal 2 (fun c => c.toNat - 48) ds) 0
      else .nan
    else parseSignedDec l
  | _ => parseSignedDec l

/-- Models ECMAScript `Number(string)` (`ToNumber` on a string): trim
`StrWhiteSpace` from both ends, convert the empty remainder to `0`,
otherwise parse the full `StringNumericLiteral` grammar — signed decimal
literals with optional fraction and exponent, `Infinity`, and unsigned
hexadecimal/octal/binary literals; everything else is `NaN`.  Finite values
are exact (see `JSNumber`). -/
def jsNumber (s : String) : JSNumber :=
  let l := ((s.data.dropWhile isStrWS).reverse.dropWhile isStrWS).reverse
  if l = [] then .val 0 0
  else parseStrNumeric l

/-- JS `ToNumber` of a possibly-absent (`undefined`) string: `undefined`
converts to `NaN`. -/
def jsNumberOf : Option String → JSNumber
  | some p => jsNumber p
  | none => .nan

/-- JS subtraction of `1` from a number (`month - 1` in the source):
`NaN` and the infinities are absorbing, a finite value is exact. -/
def jsSubOne : JSNumber → JSNumber
  | .val m e =>
    if 0 ≤ e then .val (m * ((10 ^ e.toNat : Nat) : Int) - 1) 0
    else .val (m - ((10 ^ (-e).toNat : Nat) : Int)) e
  | x => x

/-- ECMAScript `truncate` (toward zero) of a finite value `m * 10 ^ e`, as
`MakeDay` applies it to each argument. -/
def jsTruncVal (m e : Int) : Int :=
  if 0 ≤ e then m * ((10 ^ e.toNat : Nat) : Int)
  else Int.tdiv m ((10 ^ (-e).toNat : Nat) : Int)

/-- ECMAScript `TimeClip`: a time value beyond `±8.64e15` milliseconds is an
Invalid Date. -/
def timeClip (ms : Int) : JSDate :=
  if -8640000000000000 ≤ ms ∧ ms ≤ 8640000000000000 then some ms else none

/-- Days from the epoch 1970-01-01 of the Gregorian civil date `(y, m, d)`
with `m` in `1..12` (the standard `days_from_civil` algorithm, floor
division throughout). -/
def daysFromCivil (y m d : Int) : Int :=
  let y2 := if m ≤ 2 then y - 1 else y
  let era := Int.fdiv y2 400
  let yoe := y2 - era * 400
  let mp := if 2 < m then m - 3 else m + 9
  let doy := Int.fdiv (153 * mp + 2) 5 + d - 1
  let doe := yoe * 365 + Int.fdiv yoe 4 - Int.fdiv yoe 100 + doy
  era * 146097 + doe - 719468

/-- Time value of JS `new Date(year, monthIndex, day)` (local midnight, local
timezone modelled as UTC): two-digit years map to 1900–1999, and an
out-of-range month index or day is normalised by carrying, exactly as the
ECMAScript `MakeDay` operation does. -/
def jsMakeDate (year monthIndex day : Int) : Int :=
  let yr := if 0 ≤ year ∧ year ≤ 99 then 1900 + year else year
  let ym := yr * 12 + monthIndex
  let ny := Int.fdiv ym 12
  let nm := ym - ny * 12
  (daysFromCivil ny (nm + 1) 1 + (day - 1)) * 86400000

/-- JS `new Date(year, monthIndex, day)` on arbitrary numbers: a `NaN` or
infinite argument gives an Invalid Date (`MakeDay` on a non-finite value is
`NaN`); finite arguments are truncated toward zero, carried through
`jsMakeDate`, and clipped to the representable time range. -/
def jsNewDate : JSNumber → JSNumber → JSNumber → JSDate
  | .val ym ye, .val mm me, .val dm de =>
    timeClip (jsMakeDate (jsTruncVal ym ye) (jsTruncVal mm me) (jsTruncVal dm de))
  | _, _, _ => none

/-- Model of `parseUserDate` (both tools): splits on `-`, converts the first
three pieces with `Number`, and builds `new Date(year, month - 1, day)`.
A missing piece is `undefined`, which converts to `NaN`; any `NaN` or
infinite component makes the date invalid.  Pieces beyond the third are
ignored, as the destructuring in the source ignores them. -/
def parseUserDate (dateStr : String) : JSDate :=
  jsNewDate (jsNumberOf ((splitStr dateStr '-').get? 0))
    (jsSubOne (jsNumberOf ((splitStr dateStr '-').get? 1)))
    (jsNumberOf ((splitStr dateStr '-').get? 2))

/-- JS `d.setHours(23, 59, 59, 999)`: move the instant to the last millisecond
of its (local) calendar day; an Invalid Date stays invalid. -/
def setHoursEndOfDay : JSDate → JSDate
  | none => none
  | some ms => some (Int.fdiv ms 86400000 * 86400000 + 86399999)

/-- Three-letter month name to month number `1..12`. -/
def monthFromName (s : String) : Option Int :=
  if s = "Jan" then some 1 else if s = "Feb" then some 2
  else if s = "Mar" then some 3 else if s = "Apr" then some 4
  else if s = "May" then some 5 else if s = "Jun" then some 6
  else if s = "Jul" then some 7 else if s = "Aug" then some 8
  else if s = "Sep" then some 9 else if s = "Oct" then some 10
  else if s = "Nov" then some 11 else if s = "Dec" then some 12
  else none

/-- Reading of `"HH:MM:SS"` as seconds after midnight. -/
def parseTimeOfDay (s : String) : Option Int :=
  match splitStr s ':' with
  | [hs, ms, ss] =>
    match digitsToNat hs, digitsToNat ms, digitsToNat ss with
    | some h, some m, some sec =>
      if h ≤ 23 ∧ m ≤ 59 ∧ sec ≤ 59 then some ((h : Int) * 3600 + (m : Int) * 60 + (sec : Int))
      else none
    | _, _, _ => none
  | _ => none

/-- Reading of a `"+HHMM"` / `"-HHMM"` timezone designator as minutes east of UTC. -/
def parseTzOffset (s : String) : Option Int :=
  match s.data with
  | [sign, d1, d2, d3, d4] =>
    if (sign = '+' ∨ sign = '-') ∧ d1.isDigit ∧ d2.isDigit ∧ d3.isDigit ∧ d4.isDigit then
      let hh : Int := (d1.toNat - 48) * 10 + (d2.toNat - 48)
      let mm : Int := (d3.toNat - 48) * 10 + (d4.toNat - 48)
      some ((if sign = '-' then -1 else 1) * (hh * 60 + mm))
    else none
  | _ => none

/-- Model of `parseTwitterDate` (both tools), i.e. `new Date(dateStr)`.  The string
parsing lives in the host JavaScript engine, not in the repository; this
models it on the one format the spec fixes
(`"Tue Jan 20 16:01:16 +0000 2026"`): day-of-week word, month name, day,
`HH:MM:SS`, `±HHMM` offset, year.  Every string outside this shape, and an
absent field, give an Invalid Date — the spec leaves other formats
implementation-defined. -/
def parseTwitterDate (dateStr : Option String) : JSDate :=
  match dateStr with
  | none => none
  | some s =>
    match splitStr s ' ' with
    | [_dow, mon, dayS, timeS, tzS, yearS] =>
      match monthFromName mon, digitsToNat dayS, parseTimeOfDay timeS,
            parseTzOffset tzS, digitsToNat yearS with
      | some m, some d, some t, some tz, some y =>
        if 1 ≤ d ∧ d ≤ 31 then
          some (daysFromCivil (y : Int) m (d : Int) * 86400000 + t * 1000 - tz * 60000)
        else none
      | _, _, _, _, _ => none
    | _ => none

/-- The `author` object of a bookmark record; each field may be absent. -/
structure Author where
  name : Option String
  username : Option String
deriving Repr, DecidableEq

/-- A quoted/embedded post; the renderer consumes only its author and text. -/
structure QuotedTweet where
  author : Option Author
  text : Option String
deriving Repr, DecidableEq

/-- One exported bookmark record (§3 of the spec): every field except the
link id may be absent.  The id is kept as the string it interpolates to. -/
structure Bookmark where
  id : String
  createdAt : Option String
  text : Option String
  author : Option Author
  likeCount : Option Int
  retweetCount : Option Int
  replyCount : Option Int
  quotedTweet : Option QuotedTweet
deriving Repr, DecidableEq

/-- The per-record predicate inside `filterByDate`: the early-return chain
`if (fromDate && createdAt < fromDate) return false;
 if (toDate && createdAt > toDate) return false; return true`.
A `Date` object is truthy even when invalid, so only a `null` bound skips its
check; a comparison against an Invalid Date is always `false`. -/
def keepBookmark (fromDate toDate : Option JSDate) (bookmark : Bookmark) : Bool :=
  let createdAt := parseTwitterDate bookmark.createdAt
  let failFrom := match fromDate with
    | some f => jsDateLt createdAt f
    | none => false
  let failTo := match toDate with
    | some t => jsDateGt createdAt t
    | none => false
  !failFrom && !failTo

/-- Function `filterByDate` of `filter-bookmarks.js`: always a single linear
`Array.prototype.filter` pass. -/
def filterByDate (bookmarks : List Bookmark) (fromDate toDate : Option JSDate) :
    List Bookmark :=
  bookmarks.filter (keepBookmark fromDate toDate)

/-- Function `filterByDate` of `convert-bookmarks-to-md.js`: identical, except that it
returns the input itself when both bounds are `null`. -/
def filterByDateMd (bookmarks : List Bookmark) (fromDate toDate : Option JSDate) :
    List Bookmark :=
  if fromDate = none ∧ toDate = none then bookmarks
  else bookmarks.filter (keepBookmark fromDate toDate)

/-- JS `x || default` on an optional string: `null`/`undefined` and `""` are
falsy and give the default. -/
def jsOrStr (x : Option String) (d : String) : String :=
  match x with
  | some s => if s = "" then d else s
  | none => d

/-- One global single-character regex replacement,
`s.replace(/c/g, r)`, done characterwise. -/
def replaceCharList (c : Char) (r : List Char) : List Char → List Char
  | [] => []
  | x :: xs => (if x = c then r else [x]) ++ replaceCharList c r xs

/-- JS `s.replace(/c/g, r)` on strings. -/
def replaceAllChar (s : String) (c : Char) (r : String) : String :=
  ⟨replaceCharList c r.data s.data⟩

/-- Function `escapeMarkdown`: falsy text gives `''`; otherwise replace every `<` with
`&lt;` and then every `>` with `&gt;`. -/
def escapeMarkdown (text : String) : String :=
  if text = "" then ""
  else replaceAllChar (replaceAllChar text '<' "&lt;") '>' "&gt;"

/-- Inverse of `daysFromCivil`: the civil `(year, month, day)` of a day
count from the epoch (the standard `civil_from_days` algorithm). -/
def civilFromDays (z0 : Int) : Int × Int × Int :=
  let z := z0 + 719468
  let era := Int.fdiv z 146097
  let doe := z - era * 146097
  let yoe := Int.fdiv (doe - Int.fdiv doe 1460 + Int.fdiv doe 36524 - Int.fdiv doe 146096) 365
  let y := yoe + era * 400
  let doy := doe - (365 * yoe + Int.fdiv yoe 4 - Int.fdiv yoe 100)
  let mp := Int.fdiv (5 * doy + 2) 153
  let d := doy - Int.fdiv (153 * mp + 2) 5 + 1
  let m := if mp < 10 then mp + 3 else mp - 9
  (if m ≤ 2 then y + 1 else y, m, d)

/-- Full month name of a month number `1..12`. -/
def monthLongName (m : Int) : String :=
  if m = 1 then "January" else if m = 2 then "February"
  else if m = 3 then "March" else if m = 4 then "April"
  else if m = 5 then "May" else if m = 6 then "June"
  else if m = 7 then "July" else if m = 8 then "August"
  else if m = 9 then "September" else if m = 10 then "October"
  else if m = 11 then "November" else "December"

/-- Two-digit zero padding. -/
def pad2 (n : Int) : String :=
  if n < 10 then "0" ++ toString n else toString n

/-- Function `formatDate`: falsy input renders as `"Unknown date"`; otherwise
`new Date(dateStr)` rendered as the host's
`toLocaleDateString('en-US', {numeric year, long month, numeric day,
2-digit hour, 2-digit minute})`, e.g. `"January 20, 2026 at 04:01 PM"`;
an Invalid Date renders as `"Invalid Date"`. -/
def formatDate (dateStr : Option String) : String :=
  if truthyStr dateStr = false then "Unknown date"
  else
    match parseTwitterDate dateStr with
    | none => "Invalid Date"
    | some ms =>
      let day := Int.fdiv ms 86400000
      let rem := ms - day * 86400000
      let ymd := civilFromDays day
      let h := Int.fdiv rem 3600000
      let mi := Int.fdiv (rem - h * 3600000) 60000
      let h12 := if Int.emod h 12 = 0 then 12 else Int.emod h 12
      let ampm := if h < 12 then "AM" else "PM"
      let mon := monthLongName ymd.2.1
      let dayS := toString ymd.2.2
      let yearS := toString ymd.1
      let hh := pad2 h12
      let mm := pad2 mi
      mon ++ " " ++ dayS ++ ", " ++ yearS ++ " at " ++ hh ++ ":" ++ mm ++ " " ++ ampm

/-- The canonical link `https://x.com/{username}/status/{id}`. -/
def tweetUrl (username id : String) : String :=
  "https://x.com/" ++ username ++ "/status/" ++ id

/-- The lines the quoted-tweet block contributes, when one is present. -/
def quotedLines (tweet : Bookmark) : List String :=
  match tweet.quotedTweet with
  | none => []
  | some qt =>
    let qtAuthor := jsOrStr (qt.author.bind Author.name) "Unknown"
    let qtUsername := jsOrStr (qt.author.bind Author.username) "unknown"
    let qtText := escapeMarkdown (jsOrStr qt.text "")
    ["",
     "> **Quoted: " ++ qtAuthor ++ " (@" ++ qtUsername ++ ")**",
     "> " ++ String.intercalate "\n> " (splitStr qtText '\n')]

/-- The lines `convertToMarkdown`'s loop pushes for one bookmark, with the
source's defaults: `author?.name || 'Unknown'`, `author?.username ||
'unknown'`, `escapeMarkdown(text || '')`, and `?? 0` on the counts. -/
def bookmarkLines (tweet : Bookmark) : List String :=
  let authorName := jsOrStr (tweet.author.bind Author.name) "Unknown"
  let username := jsOrStr (tweet.author.bind Author.username) "unknown"
  let text := escapeMarkdown (jsOrStr tweet.text "")
  let createdAt := formatDate tweet.createdAt
  let likes := tweet.likeCount.getD 0
  let retweets := tweet.retweetCount.getD 0
  let replies := tweet.replyCount.getD 0
  let url := tweetUrl username tweet.id
  ["## " ++ authorName ++ " (@" ++ username ++ ")",
   "**Date:** " ++ createdAt,
   "",
   text,
   "",
   "- Likes: " ++ toString likes ++ " | Retweets: " ++ toString retweets ++
     " | Replies: " ++ toString replies,
   "- [View tweet](" ++ url ++ ")"]
  ++ quotedLines tweet
  ++ ["", "---", ""]

/-- Function `convertToMarkdown`; the generation date
(`new Date().toISOString().split('T')[0]`) is an input of the process and is
passed explicitly as `now`. -/
def convertToMarkdown (now : String) (bookmarks : List Bookmark) : String :=
  let header := ["# X Bookmarks", "", "Exported on: " ++ now,
    "Total bookmarks: " ++ toString bookmarks.length, "", "---", ""]
  String.intercalate "\n" (header ++ bookmarks.flatMap bookmarkLines)

/-- The record `parseArgs` fills: `input`/`output` paths and the two date
bounds, each `null` until a matching token is seen. -/
structure ParseResult where
  input : Option String
  output : Option String
  fromDate : Option JSDate
  toDate : Option JSDate
deriving Repr, DecidableEq

/-- The initial `parseArgs` record: everything `null`. -/
def initResult : ParseResult := ⟨none, none, none, none⟩

/-- The index walk of `parseArgs` (identical in both tools): `--from`/`--to`
and `-o`/`--output` consume the next token when that token exists and is
truthy (a nonempty string); otherwise a token that does not start with `-`
is taken as the positional input if the input so far is falsy; every other
token is skipped. -/
def parseArgsLoop : List String → ParseResult → ParseResult
  | [], r => r
  | arg :: rest, r =>
    match rest with
    | v :: rest' =>
      if arg = "--from" ∧ v ≠ "" then
        parseArgsLoop rest' { r with fromDate := some (parseUserDate v) }
      else if arg = "--to" ∧ v ≠ "" then
        parseArgsLoop rest' { r with toDate := some (setHoursEndOfDay (parseUserDate v)) }
      else if (arg = "-o" ∨ arg = "--output") ∧ v ≠ "" then
        parseArgsLoop rest' { r with output := some v }
      else if startsWithChar arg '-' = false ∧ truthyStr r.input = false then
        parseArgsLoop (v :: rest') { r with input := some arg }
      else
        parseArgsLoop (v :: rest') r
    | [] =>
      if startsWithChar arg '-' = false ∧ truthyStr r.input = false then
        { r with input := some arg }
      else
        r

/-- Function `parseArgs` of both tools. -/
def parseArgs (args : List String) : ParseResult :=
  parseArgsLoop args initResult

/-- The observable outcome of one run of the filter tool's `main`:
`help` prints the usage text and exits 0; each error prints its message on
the error stream and exits 1; `success` emits the pretty-printed filtered
array and exits 0. -/
inductive RunOutcome where
  /-- Usage text printed, exit status 0. -/
  | help
  /-- Message `"Error: Input file required"`, exit status 1. -/
  | errInputRequired
  /-- Message `"Error: Input file ... not found"`, exit status 1. -/
  | errNotFound
  /-- Message `"Error: At least one of --from or --to is required"`, exit status 1. -/
  | errNoBounds
  /-- JSON parse failure or a non-array value, exit status 1. -/
  | errBadJson
  /-- The filtered records, exit status 0. -/
  | success (output : List Bookmark)
deriving Repr, DecidableEq

/-- Process exit status of each outcome. -/
def exitCode : RunOutcome → Nat
  | .help => 0
  | .success _ => 0
  | _ => 1

/-- Function `main` of `filter-bookmarks.js` as a function of the argument list and of
the file system's answer for the input path: `file = none` means the path
does not exist, `some none` that reading or `JSON.parse` fails or the value
is not an array, `some (some A)` that it holds the array `A`. -/
def filterToolRun (args : List String)
    (file : Option (Option (List Bookmark))) : RunOutcome :=
  if args = [] ∨ "--help" ∈ args ∨ "-h" ∈ args then .help
  else
    let options := parseArgs args
    if truthyStr options.input = false then .errInputRequired
    else
      match file with
      | none => .errNotFound
      | some content =>
        if options.fromDate = none ∧ options.toDate = none then .errNoBounds
        else
          match content with
          | none => .errBadJson
          | some bookmarks =>
            .success (filterByDate bookmarks options.fromDate options.toDate)

/-! ### Sample records used by concrete counterexamples and witnesses -/

/-- A record whose `createdAt` string does not parse as a date. -/
def badBookmark : Bookmark :=
  ⟨"1", some "not-a-real-date", none, none, none, none, none, none⟩

/-- A record timestamped `Tue Jan 20 16:01:16 +0000 2026`
(instant `1768924876000`). -/
def goodBookmark : Bookmark :=
  ⟨"2", some "Tue Jan 20 16:01:16 +0000 2026", none, none, none, none, none, none⟩

/-! ### Helper lemmas -/

theorem jsDateLt_none_left (b : JSDate) : jsDateLt none b = false := rfl

theorem jsDateGt_none_left (b : JSDate) : jsDateGt none b = false := rfl

/-- A record with an unparseable timestamp passes the filter predicate for
every pair of bounds: both rejecting comparisons are `false` on `NaN`. -/
theorem keepBookmark_of_invalid (fd td : Option JSDate) (b : Bookmark)
    (hp : parseTwitterDate b.createdAt = none) :
    keepBookmark fd td b = true := by
  unfold keepBookmark
  rw [hp]
  cases fd <;> cases td <;> simp [jsDateLt_none_left, jsDateGt_none_left]

/-- The filter predicate with both bounds `null` keeps everything. -/
theorem keepBookmark_none_none (b : Bookmark) : keepBookmark none none b = true := rfl

/-- C5: for every input array, when both the from bound and the to bound are
unset the range filter returns the input unchanged, in both tools'
`filterByDate`. -/
theorem C5_filter_no_bounds_identity (A : List Bookmark) :
    filterByDate A none none = A ∧ filterByDateMd A none none = A := by
  constructor
  · simp [filterByDate, keepBookmark_none_none]
  · simp [filterByDateMd]

/-! ### C6: filtering is idempotent and mutation-free -/

/-- C6: filtering the output of a previous filter with the same bounds equals
filtering once, for both tools' `filterByDate`; the input is a value, never
mutated. -/
theorem C6_filter_idempotent (A : List Bookmark) (fd td : Option JSDate) :
    filterByDate (filterByDate A fd td) fd td = filterByDate A fd td ∧
    filterByDateMd (filterByDateMd A fd td) fd td = filterByDateMd A fd td := by
  have hbase : ∀ l : List Bookmark,
      List.filter (keepBookmark fd td) (List.filter (keepBookmark fd td) l) =
        List.filter (keepBookmark fd td) l := by
    intro l
    rw [List.filter_filter]
    simp [Bool.and_self]
  constructor
  · exact hbase A
  · unfold filterByDateMd
    split
    · rfl
    · exact hbase A

/-! ### C7: escaping replaces exactly `<` and `>` -/

/-- The spec's per-character escaping (§4.3): `<` becomes `&lt;`, `>` becomes
`&gt;`, every other character is left unchanged. -/
def escapeCharSpec (c : Char) : List Char :=
  if c = '<' then "&lt;".data else if c = '>' then "&gt;".data else [c]

theorem replaceCharList_append (c : Char) (r l1 l2 : List Char) :
    replaceCharList c r (l1 ++ l2) = replaceCharList c r l1 ++ replaceCharList c r l2 := by
  induction l1 with
  | nil => rfl
  | cons x xs ih => simp [replaceCharList, ih]

/-- Replacing `<` and then `>` equals the single-pass per-character escaping:
the first replacement's output `&lt;` contains no `>`. -/
theorem double_replace_eq_spec (l : List Char) :
    replaceCharList '>' "&gt;".data (replaceCharList '<' "&lt;".data l) =
      l.flatMap escapeCharSpec := by
  induction l with
  | nil => rfl
  | cons x xs ih =>
    show replaceCharList '>' "&gt;".data
        ((if x = '<' then "&lt;".data else [x]) ++ replaceCharList '<' "&lt;".data xs) =
      escapeCharSpec x ++ xs.flatMap escapeCharSpec
    rw [replaceCharList_append, ih]
    by_cases h1 : x = '<'
    · subst h1; rfl
    · by_cases h2 : x = '>'
      · subst h2; rfl
      · simp [replaceCharList, escapeCharSpec, h1, h2]

/-- C7: `escapeMarkdown` replaces exactly the characters `<` and `>` with
`&lt;` and `&gt;` and changes no other character; in particular
`escapeMarkdown "a<b>c" = "a&lt;b&gt;c"`. -/
theorem C7_escape_exact (s : String) :
    escapeMarkdown s = ⟨s.data.flatMap escapeCharSpec⟩ ∧
    escapeMarkdown "a<b>c" = "a&lt;b&gt;c" := by
  refine ⟨?_, by decide⟩
  unfold escapeMarkdown replaceAllChar
  by_cases h : s = ""
  · subst h; rfl
  · simp only [h, if_false]
    exact congrArg String.mk (double_replace_eq_spec s.data)

/-! ### C1: records with unparseable timestamps -/

/-- C1 counterexample: with a from bound set, a record whose `createdAt`
fails to parse is kept by the filter, not excluded as the claim states. -/
theorem C1_counterexample :
    parseTwitterDate badBookmark.createdAt = none ∧
    filterByDate [badBookmark] (some (some 0)) none = [badBookmark] ∧
    filterByDateMd [badBookmark] (some (some 0)) none = [badBookmark] := by decide

/-- C1 (amended): a record whose `createdAt` fails to parse is always
included — when no bound is set and equally when bounds are set — because an
Invalid Date compares `false` against any bound, so neither rejecting
comparison fires. -/
theorem C1_amended_invalid_always_included (A : List Bookmark)
    (fd td : Option JSDate) (b : Bookmark) (hb : b ∈ A)
    (hp : parseTwitterDate b.createdAt = none) :
    b ∈ filterByDate A fd td ∧ b ∈ filterByDateMd A fd td := by
  have hk := keepBookmark_of_invalid fd td b hp
  refine ⟨List.mem_filter.mpr ⟨hb, hk⟩, ?_⟩
  unfold filterByDateMd
  split
  · exact hb
  · exact List.mem_filter.mpr ⟨hb, hk⟩

theorem C1_amended_witness :
    badBookmark ∈ filterByDate [badBookmark] (some (some 0)) none ∧
    badBookmark ∈ filterByDateMd [badBookmark] (some (some 0)) none :=
  C1_amended_invalid_always_included [badBookmark] (some (some 0)) none
    badBookmark (by decide) (by decide)

/-! ### C2: malformed `--from` and `--to` values -/

/-- The inclusive bound predicate as the spec words it (§4.2/§8):
`from == null || timestamp >= from` and `to == null || timestamp <= to`,
with JS comparison semantics on the record's parsed timestamp. -/
def specBoundPred (fd td : Option JSDate) (b : Bookmark) : Bool :=
  (match fd with
    | none => true
    | some f => jsDateGe (parseTwitterDate b.createdAt) f) &&
  (match td with
    | none => true
    | some t => jsDateLe (parseTwitterDate b.createdAt) t)

/-- C3 counterexample: with bounds set and `from ≤ to`, the filter keeps a
record whose timestamp does not parse, and that record fails the claimed
inclusive bound predicate. -/
theorem C3_counterexample :
    (0 : Int) ≤ 86400000 ∧
    filterByDate [badBookmark] (some (some 0)) (some (some 86400000)) = [badBookmark] ∧
    specBoundPred (some (some 0)) (some (some 86400000)) badBookmark = false := by decide

/-- C3 (amended): the filter output is an order-preserving subsequence of the
input for both tools, and — for bounds that are null or valid instants —
every kept record whose timestamp parses satisfies the inclusive bound
predicate; records whose timestamp fails to parse are kept unconditionally. -/
theorem C3_amended_subsequence_and_bounds (A : List Bookmark)
    (fd td : Option JSDate)
    (hf : fd = none ∨ ∃ f : Int, fd = some (some f))
    (ht : td = none ∨ ∃ t : Int, td = some (some t)) :
    (filterByDate A fd td).Sublist A ∧ (filterByDateMd A fd td).Sublist A ∧
    ∀ b ∈ filterByDate A fd td, ∀ ts, parseTwitterDate b.createdAt = some ts →
      specBoundPred fd td b = true := by
  refine ⟨List.filter_sublist A, ?_, ?_⟩
  · unfold filterByDateMd
    split
    · exact List.Sublist.refl A
    · exact List.filter_sublist A
  · intro b hbmem ts hts
    obtain ⟨-, hk⟩ := List.mem_filter.mp hbmem
    unfold keepBookmark at hk
    rw [hts] at hk
    simp only [Bool.and_eq_true, Bool.not_eq_true'] at hk
    obtain ⟨hkf, hkt⟩ := hk
    unfold specBoundPred
    rw [hts]
    rcases hf with rfl | ⟨f, rfl⟩ <;> rcases ht with rfl | ⟨t, rfl⟩ <;>
      simp_all [jsDateLt, jsDateGt, jsDateGe, jsDateLe]

theorem C3_amended_witness :
    (filterByDate [goodBookmark] (some (some 0)) (some (some 1768953599999))).Sublist
      [goodBookmark] ∧
    (filterByDateMd [goodBookmark] (some (some 0)) (some (some 1768953599999))).Sublist
      [goodBookmark] ∧
    ∀ b ∈ filterByDate [goodBookmark] (some (some 0)) (some (some 1768953599999)),
      ∀ ts, parseTwitterDate b.createdAt = some ts →
        specBoundPred (some (some 0)) (some (some 1768953599999)) b = true :=
  C3_amended_subsequence_and_bounds [goodBookmark] (some (some 0))
    (some (some 1768953599999)) (Or.inr ⟨0, rfl⟩) (Or.inr ⟨1768953599999, rfl⟩)

/-! ### C4: the `--to` bound covers its whole calendar day -/

/-- A valid `parseUserDate` result is a local midnight: a whole number of
days in milliseconds. -/
theorem parseUserDate_multiple (s : String) (t : Int)
    (h : parseUserDate s = some t) : ∃ k : Int, t = k * 86400000 := by
  unfold parseUserDate jsNewDate at h
  split at h
  · unfold timeClip at h
    split at h
    · obtain rfl := Option.some.inj h
      simp only [jsMakeDate]
      exact ⟨_, rfl⟩
    · exact Option.noConfusion h
  · exact Option.noConfusion h

/-- Applying `setHours(23, 59, 59, 999)` to a valid `parseUserDate` result
adds exactly `86399999` milliseconds. -/
theorem setHours_of_parseUserDate (s : String) (t : Int)
    (h : parseUserDate s = some t) :
    setHoursEndOfDay (some t) = some (t + 86399999) := by
  obtain ⟨k, rfl⟩ := parseUserDate_multiple s t h
  simp only [setHoursEndOfDay]
  rw [Int.mul_fdiv_cancel k (by norm_num)]

/-- C4: a well-formed `--to` value is normalised to the last millisecond of
its calendar day (the day starting at the parsed local midnight `t`): a
record timestamped at any instant of that day is kept by the resulting
bound, and one timestamped on the next calendar day is rejected. -/
theorem C4_to_bound_end_of_day (s : String) (t : Int) (b : Bookmark) (ts : Int)
    (hs : parseUserDate s = some t)
    (hb : parseTwitterDate b.createdAt = some ts) :
    (parseArgs ["--to", s]).toDate = some (some (t + 86399999)) ∧
    (t ≤ ts → ts < t + 86400000 →
      filterByDate [b] none (some (some (t + 86399999))) = [b]) ∧
    (t + 86400000 ≤ ts → ts < t + 2 * 86400000 →
      filterByDate [b] none (some (some (t + 86399999))) = []) := by
  have hs' : s ≠ "" := by
    rintro rfl
    rw [show parseUserDate "" = none from rfl] at hs
    cases hs
  refine ⟨?_, ?_, ?_⟩
  · have h1 : ¬("--to" = "--from" ∧ s ≠ "") := by
      rintro ⟨hcontra, -⟩
      exact absurd hcontra (by decide)
    simp [parseArgs, parseArgsLoop, h1, hs', hs, setHours_of_parseUserDate s t hs]
  · intro h1 h2
    have : keepBookmark none (some (some (t + 86399999))) b = true := by
      simp [keepBookmark, hb, jsDateGt]
      omega
    simp [filterByDate, List.filter, this]
  · intro h1 _h2
    have : keepBookmark none (some (some (t + 86399999))) b = false := by
      simp [keepBookmark, hb, jsDateGt]
      omega
    simp [filterByDate, List.filter, this]

theorem C4_witness :
    (parseArgs ["--to", "2026-01-20"]).toDate = some (some (1768867200000 + 86399999)) ∧
    ((1768867200000 : Int) ≤ 1768924876000 →
      (1768924876000 : Int) < 1768867200000 + 86400000 →
      filterByDate [goodBookmark] none (some (some (1768867200000 + 86399999))) =
        [goodBookmark]) ∧
    ((1768867200000 : Int) + 86400000 ≤ 1768924876000 →
      (1768924876000 : Int) < 1768867200000 + 2 * 86400000 →
      filterByDate [goodBookmark] none (some (some (1768867200000 + 86399999))) = []) :=
  C4_to_bound_end_of_day "2026-01-20" 1768867200000 goodBookmark 1768924876000
    (by decide) (by decide)

/-! ### C8: defaults for missing fields -/

/-- C8: rendering is total, and a record lacking `author` gets the heading
defaults `Unknown`/`unknown`, one lacking `text` gets an empty body line,
and one lacking `likeCount` gets `0` in the engagement line. -/
theorem C8_missing_field_defaults (b : Bookmark) :
    (b.author = none → (bookmarkLines b)[0]? = some "## Unknown (@unknown)") ∧
    (b.text = none → (bookmarkLines b)[3]? = some "") ∧
    (b.likeCount = none → (bookmarkLines b)[5]? =
      some ("- Likes: 0 | Retweets: " ++ toString (b.retweetCount.getD 0) ++
        " | Replies: " ++ toString (b.replyCount.getD 0))) := by
  refine ⟨fun ha => ?_, fun ht => ?_, fun hl => ?_⟩
  · simp [bookmarkLines, ha, jsOrStr]
  · simp [bookmarkLines, ht, jsOrStr, escapeMarkdown]
  · simp [bookmarkLines, hl]
    rw [show "- Likes: " ++ toString (0 : Int) ++ " | Retweets: " = "- Likes: 0 | Retweets: "
      from by decide]

/-- A record with no author, no text and no counts, used to instantiate
`C8_missing_field_defaults`. -/
def emptyBookmark : Bookmark :=
  ⟨"7", none, none, none, none, none, none, none⟩

theorem C8_missing_field_defaults_witness :
    (bookmarkLines emptyBookmark)[0]? = some "## Unknown (@unknown)" ∧
    (bookmarkLines emptyBookmark)[3]? = some "" ∧
    (bookmarkLines emptyBookmark)[5]? =
      some ("- Likes: 0 | Retweets: " ++ toString ((none : Option Int).getD 0) ++
        " | Replies: " ++ toString ((none : Option Int).getD 0)) :=
  ⟨(C8_missing_field_defaults emptyBookmark).1 rfl,
   (C8_missing_field_defaults emptyBookmark).2.1 rfl,
   (C8_missing_field_defaults emptyBookmark).2.2 rfl⟩

/-! ### C9: unknown tokens are skipped -/

/-- C9: a token that is none of the four value-taking flags, and that either
starts with `-` or arrives when the positional input is already truthy, is
skipped by `parseArgs`: the walk continues on the remaining tokens with the
options unchanged. -/
theorem C9_unknown_token_ignored (t : String) (rest : List String)
    (r : ParseResult)
    (h1 : t ≠ "--from") (h2 : t ≠ "--to") (h3 : t ≠ "-o") (h4 : t ≠ "--output")
    (h5 : startsWithChar t '-' = true ∨ truthyStr r.input = true) :
    parseArgsLoop (t :: rest) r = parseArgsLoop rest r := by
  cases rest with
  | nil =>
    rcases h5 with h | h <;> simp [parseArgsLoop, h]
  | cons v rest' =>
    rcases h5 with h | h <;> simp [parseArgsLoop, h1, h2, h3, h4, h]

theorem C9_unknown_token_ignored_witness :
    parseArgsLoop ["--verbose", "a.json"] initResult =
      parseArgsLoop ["a.json"] initResult :=
  C9_unknown_token_ignored "--verbose" ["a.json"] initResult
    (by decide) (by decide) (by decide) (by decide) (Or.inl (by decide))

/-! ### C10: help on empty arguments, missing-input error path -/

/-- C10 counterexample: the empty-string token is consumed as the positional
input (`input` becomes `""`, not `null`), yet the missing-input error path is
still reached, against the claim that it is reached only when no token is
consumed as the input path. -/
theorem C10_counterexample :
    filterToolRun [""] (some (some [])) = .errInputRequired ∧
    (parseArgs [""]).input = some "" ∧
    exitCode .errInputRequired = 1 := by decide

/-- C10 (amended): an empty argument list prints the help text and exits 0;
the missing-input error (exit 1, `"Error: Input file required"`) is reached
exactly when at least one argument is present, no help flag occurs, and the
parsed positional input is falsy — `null` because no token was consumed, or
the consumed empty string. -/
theorem C10_amended_help_and_error_path (args : List String)
    (file : Option (Option (List Bookmark))) :
    filterToolRun [] file = .help ∧
    exitCode RunOutcome.help = 0 ∧ exitCode RunOutcome.errInputRequired = 1 ∧
    (filterToolRun args file = .errInputRequired ↔
      args ≠ [] ∧ "--help" ∉ args ∧ "-h" ∉ args ∧
        truthyStr (parseArgs args).input = false) := by
  refine ⟨by simp [filterToolRun], rfl, rfl, ?_⟩
  unfold filterToolRun
  by_cases h : args = [] ∨ "--help" ∈ args ∨ "-h" ∈ args
  · rw [if_pos h]
    refine iff_of_false (fun hcontra => RunOutcome.noConfusion hcontra) ?_
    rintro ⟨hne, hh, hm, -⟩
    rcases h with h | h | h
    · exact hne h
    · exact hh h
    · exact hm h
  · rw [if_neg h]
    push_neg at h
    obtain ⟨hne, hh, hm⟩ := h
    by_cases h2 : truthyStr (parseArgs args).input = false
    · simp [h2, hne, hh, hm]
    · rw [if_neg h2]
      refine iff_of_false ?_ (fun hc => h2 hc.2.2.2)
      cases file with
      | none => simp
      | some content =>
        by_cases h3 : (parseArgs args).fromDate = none ∧ (parseArgs args).toDate = none
        · simp [h3]
        · cases content <;> simp [h3]

end XBookmarks
